import Mathlib

/-!
Verification of the object-request tracker of `dapa_daemon`
(`src/dapa_daemon/src/p2p/tracker/mod.rs`), shallowly embedded in Lean.

Hashes, peer ids, group ids, slots and payloads are modelled as `Nat`.
Time (`Instant`) is modelled as a `Nat` number of milliseconds; the current
instant is passed explicitly to every operation that reads the clock, and
`elapsed` becomes truncated subtraction `now - t`.  The liveness of a peer
connection (`peer.get_connection().is_closed()`) is an externally-owned
observation and is passed in as a function `peerClosed : Nat → Bool` from
peer id to closed-state at the moment of observation.  The bounded mpsc
dispatch channel is modelled by its FIFO contents plus a `channelClosed`
flag; `Sender::send` fails exactly when the channel is closed.
-/

namespace Tracker

/-- Constant `PEER_TIMEOUT_REQUEST_OBJECT` from `dapa_daemon/src/config.rs` line 158,
in milliseconds. -/
def PEER_TIMEOUT_REQUEST_OBJECT : Nat := 15000

/-- Constant `TIME_OUT` from `tracker/mod.rs` line 94, as a number of milliseconds. -/
def TIME_OUT : Nat := PEER_TIMEOUT_REQUEST_OBJECT

/-- Modelled from the spec: the in-flight fetch record of
`tracker/request.rs`, which is not present under `src/`.  Spec §3:
"Request: { identity, target peer ..., optional group, optional send
timestamp (unset until dispatched, then set exactly once), notification
slot reachable by any number of listeners }".  The notification slot is
identified by a `slot` number; listeners attached to the same Request share
its slot. -/
structure Request where
  hash : Nat
  peerId : Nat
  groupId : Option Nat
  requestedAt : Option Nat
  slot : Nat
  deriving Repr, DecidableEq

/-- Modelled from the spec: the listener handle returned by
`Request::new` / `Request::listen` (`tracker/request.rs`, not under
`src/`).  Spec §2/§4.1: a listener is attached to a Request's notification
slot; we record which slot it listens on. -/
structure RequestResponse where
  slot : Nat
  deriving Repr, DecidableEq

/-- The error type of the tracker operations (`P2pError`); the only variant
the tracker itself produces is the channel-send failure, spec §7:
"`ChannelClosed` (dispatch channel gone; tracker shutting down)". -/
inductive P2pError where
  | ChannelClosed
  deriving Repr, DecidableEq

/-- Modelled from the spec: the insertion-ordered map
`dapa_common::queue::Queue<Hash, Request>` (not under `src/`), spec §4.4:
an insertion-ordered key→value map.  We represent it as the list of its
entries in insertion order. -/
abbrev Q := List (Nat × Request)

/-- Modelled from the spec: `Queue::get(key)`, "O(1) lookup without
removal" (spec §4.4). -/
def qget (q : Q) (h : Nat) : Option Request :=
  (q.find? (fun e => e.1 == h)).map (fun e => e.2)

/-- Modelled from the spec: `Queue::push(key, value)`, "appends,
order-preserving" (spec §4.4). -/
def qpush (q : Q) (h : Nat) (r : Request) : Q :=
  q ++ [(h, r)]

/-- Modelled from the spec: `Queue::remove(key)`, "deletes and returns
value, preserves remaining order" (spec §4.4). -/
def qremove (q : Q) (h : Nat) : Option (Request × Q) :=
  match q.find? (fun e => e.1 == h) with
  | some e => some (e.2, q.eraseP (fun e => e.1 == h))
  | none => none

/-- Modelled from the spec: `Queue::get_mut(key)` followed by a field
update, used by the requester loop to stamp the send time (spec §4.2). -/
def qsetRequested (q : Q) (h : Nat) (now : Nat) : Q :=
  q.map (fun e => if e.1 == h then (e.1, { e.2 with requestedAt := some now }) else e)

/-- Modelled from the spec: `Queue::extract_if(predicate)` "removes, in
original order, every entry whose (key, value) satisfies predicate,
returning them for post-processing" (spec §4.4): the extracted entries. -/
def qextract (q : Q) (p : Nat × Request → Bool) : Q :=
  q.filter p

/-- Modelled from the spec: the entries remaining after
`Queue::extract_if(predicate)`, "preserving remaining order" (spec §4.4). -/
def qretain (q : Q) (p : Nat × Request → Bool) : Q :=
  q.filter (fun e => !(p e))

/-- The dedupe cache content of `ExpirableCache` (`tracker/mod.rs` lines
46-73): a map from hash to insertion instant, represented as an
association list with unique keys. -/
abbrev Cache := List (Nat × Nat)

/-- Method `ExpirableCache::insert` (`tracker/mod.rs` lines 57-60):
`cache.insert(hash, Instant::now())`, replacing any previous entry for the
same hash. -/
def cacheInsert (c : Cache) (h : Nat) (now : Nat) : Cache :=
  (h, now) :: c.filter (fun e => e.1 ≠ h)

/-- Method `ExpirableCache::remove` (`tracker/mod.rs` lines 62-65):
`cache.remove(hash).is_some()` together with the resulting cache. -/
def cacheRemove (c : Cache) (h : Nat) : Bool × Cache :=
  (c.any (fun e => e.1 == h), c.filter (fun e => e.1 ≠ h))

/-- Method `ExpirableCache::clean` (`tracker/mod.rs` lines 67-72):
`cache.retain(|_, v| v.elapsed() < timeout)`. -/
def cacheClean (c : Cache) (timeout now : Nat) : Cache :=
  c.filter (fun e => now - e.2 < timeout)

/-- Membership test for the dedupe cache. -/
def cacheHas (c : Cache) (h : Nat) : Bool :=
  c.any (fun e => e.1 == h)

/-- The mutable state of `ObjectTracker` (`tracker/mod.rs` lines 77-88):
the ordered request queue, the dedupe cache, the contents of the bounded
dispatch channel together with its closed flag, and a fresh-slot counter
standing for the allocation of new notification slots. -/
structure TrackerState where
  queue : Q
  cache : Cache
  channel : List Nat
  channelClosed : Bool
  nextSlot : Nat
  deriving Repr, DecidableEq

/-- Whether the queue currently holds a Request for identity `h`. -/
def queueHas (s : TrackerState) (h : Nat) : Bool :=
  (qget s.queue h).isSome

/-- The predicate of `clean_queue`'s `extract_if` closure
(`tracker/mod.rs` lines 275-294): an entry is extracted when its group
matches the failed group, or its peer matches the given peer id, or its
peer's connection is observed closed, or it was sent and its age exceeds
`TIME_OUT`. -/
def cleanPred (peerClosed : Nat → Bool) (now : Nat) (peerId group : Option Nat)
    (r : Request) : Bool :=
  if (match group, r.groupId with
      | some failedGroup, some requestGroup => failedGroup == requestGroup
      | _, _ => false) then
    true
  else if (some r.peerId == peerId) || peerClosed r.peerId then
    true
  else if (match r.requestedAt with
           | some requestedAt => decide (TIME_OUT < now - requestedAt)
           | none => false) then
    true
  else
    false

/-- Method `ObjectTracker::clean_queue` (`tracker/mod.rs` lines 273-300): extract
every queue entry satisfying `cleanPred` and insert each extracted hash
into the dedupe cache with the current instant. -/
def clean_queue (peerClosed : Nat → Bool) (now : Nat) (s : TrackerState)
    (peerId group : Option Nat) : TrackerState :=
  let removed := qextract s.queue (fun e => cleanPred peerClosed now peerId group e.2)
  let remaining := qretain s.queue (fun e => cleanPred peerClosed now peerId group e.2)
  { s with
    queue := remaining,
    cache := removed.foldl (fun c e => cacheInsert c e.1 now) s.cache }

/-- Method `ObjectTracker::mark_group_as_fail` (`tracker/mod.rs` lines 225-229):
`clean_queue(&mut queue, None, Some(group_id))`. -/
def mark_group_as_fail (peerClosed : Nat → Bool) (now : Nat) (s : TrackerState)
    (groupId : Nat) : TrackerState :=
  clean_queue peerClosed now s none (some groupId)

/-- Method `ObjectTracker::handle_object_response` (`tracker/mod.rs` lines
233-248).  Returns the new state, the boolean result, and the list of
notification events `(slot, payload)` delivered to listeners
(`request.notify(response)`).  Every `return` in the source is `Ok`, so the
result is an `Except` whose error branch mirrors the `Result` type. -/
def handle_object_response (s : TrackerState) (h : Nat) (payload : Nat) :
    Except P2pError (TrackerState × Bool × List (Nat × Nat)) :=
  match qremove s.queue h with
  | some (request, q) => .ok ({ s with queue := q }, true, [(request.slot, payload)])
  | none =>
    match cacheRemove s.cache h with
    | (true, c) => .ok ({ s with cache := c }, true, [])
    | (false, _) => .ok (s, false, [])

/-- Method `ObjectTracker::request_object_from_peer_with_or_get_notified`
(`tracker/mod.rs` lines 251-270).  If a Request for the hash already
exists, return a listener on its slot without touching the state.
Otherwise create a Request with a fresh slot, push it into the queue, then
send the hash on the dispatch channel; the channel send fails with
`ChannelClosed` when the channel is closed, and the push is not rolled
back.  Returns the post-state together with the call's result. -/
def request_object_from_peer_with_or_get_notified (s : TrackerState) (h : Nat)
    (peerId : Nat) (groupId : Option Nat) :
    TrackerState × Except P2pError RequestResponse :=
  match qget s.queue h with
  | some request => (s, .ok { slot := request.slot })
  | none =>
    let req : Request :=
      { hash := h, peerId := peerId, groupId := groupId,
        requestedAt := none, slot := s.nextSlot }
    let s1 := { s with queue := qpush s.queue h req, nextSlot := s.nextSlot + 1 }
    if s1.channelClosed then
      (s1, .error .ChannelClosed)
    else
      ({ s1 with channel := s1.channel ++ [h] }, .ok { slot := req.slot })

/-- Method `ObjectTracker::request_object_from_peer_internal` (`tracker/mod.rs`
lines 304-348), one iteration of the requester loop for a dispatched hash.
If the hash is still queued, its send time is stamped; then, if the peer's
connection is observed closed, or the transmission fails (`send_bytes`
error or the peer's exit signal firing first, both folded into
`sendOk = false`), `clean_queue` is invoked with that peer's id and the
request's group. -/
def request_object_from_peer_internal (peerClosed : Nat → Bool) (now : Nat)
    (sendOk : Bool) (s : TrackerState) (h : Nat) : TrackerState :=
  match qget s.queue h with
  | none => s
  | some req =>
    let s1 := { s with queue := qsetRequested s.queue h now }
    if peerClosed req.peerId then
      clean_queue peerClosed now s1 (some req.peerId) req.groupId
    else if !sendOk then
      clean_queue peerClosed now s1 (some req.peerId) req.groupId
    else
      s1

/-- One tick of `ObjectTracker::task_clean_cache` (`tracker/mod.rs` lines
140-153): `self.cache.clean(TIME_OUT)`. -/
def clean_cache_tick (now : Nat) (s : TrackerState) : TrackerState :=
  { s with cache := cacheClean s.cache TIME_OUT now }

/-- A sequence of cache-sweep ticks at the given instants, in order. -/
def runCacheSweeps (s : TrackerState) (times : List Nat) : TrackerState :=
  times.foldl (fun st t => clean_cache_tick t st) s

/-- The queue drain `queue.clear()` performed by `handler_loop` on shutdown
(`tracker/mod.rs` lines 196-199). -/
def handler_loop_exit (s : TrackerState) : TrackerState :=
  { s with queue := [] }

/-- The inner `while let Some(request) = queue.peek_mut()` loop of one
timeout-sweep tick of `handler_loop` (`tracker/mod.rs` lines 175-192),
with explicit fuel for termination (each pass through the loop body that
does not break removes at least the head entry via `clean_queue`, so the
initial queue length is always enough fuel; see `sweepLoop_fuel_ge`).
Besides the final state it returns the list of `(peer_id, group_id)`
arguments of the `clean_queue` calls the loop performed, in order. -/
def sweepLoop (peerClosed : Nat → Bool) (now : Nat) :
    Nat → TrackerState → TrackerState × List (Nat × Option Nat)
  | 0, s => (s, [])
  | fuel + 1, s =>
    match s.queue with
    | [] => (s, [])
    | x :: _ =>
      match x.2.requestedAt with
      | none => (s, [])
      | some requestedAt =>
        if TIME_OUT < now - requestedAt then
          let s1 := clean_queue peerClosed now s (some x.2.peerId) x.2.groupId
          let r := sweepLoop peerClosed now fuel s1
          (r.1, (x.2.peerId, x.2.groupId) :: r.2)
        else
          (s, [])

/-- One timeout-sweep tick of `handler_loop` (`tracker/mod.rs` lines
167-193): run the head-scan loop, with the queue length as (sufficient)
fuel. -/
def sweepTick (peerClosed : Nat → Bool) (now : Nat) (s : TrackerState) :
    TrackerState × List (Nat × Option Nat) :=
  sweepLoop peerClosed now s.queue.length s

section Lemmas

/-- Rewriting of `cleanPred` as a flat disjunction of its three tests. -/
lemma cleanPred_eq (pc : Nat → Bool) (now : Nat) (pid g : Option Nat) (r : Request) :
    cleanPred pc now pid g r =
      ((match g, r.groupId with
        | some failedGroup, some requestGroup => failedGroup == requestGroup
        | _, _ => false)
       || ((some r.peerId == pid) || pc r.peerId)
       || (match r.requestedAt with
           | some requestedAt => decide (TIME_OUT < now - requestedAt)
           | none => false)) := by
  unfold cleanPred
  cases hg : (match g, r.groupId with
              | some failedGroup, some requestGroup => failedGroup == requestGroup
              | _, _ => false) <;>
    cases hp : (some r.peerId == pid) <;>
    cases hc : pc r.peerId <;>
    cases ht : (match r.requestedAt with
                | some requestedAt => decide (TIME_OUT < now - requestedAt)
                | none => false) <;>
    simp [hg, hp, hc, ht]

/-- A request whose peer is the targeted peer always satisfies the
eviction predicate. -/
lemma cleanPred_of_peer (pc : Nat → Bool) (now : Nat) (g : Option Nat) (r : Request) :
    cleanPred pc now (some r.peerId) g r = true := by
  rw [cleanPred_eq]
  simp

/-- A request tagged with the targeted group always satisfies the eviction
predicate. -/
lemma cleanPred_of_group (pc : Nat → Bool) (now : Nat) (pid : Option Nat)
    (fg : Nat) (r : Request) (hg : r.groupId = some fg) :
    cleanPred pc now pid (some fg) r = true := by
  rw [cleanPred_eq]
  simp [hg]

/-- The remaining queue after `clean_queue` is the retained filter of the
original queue. -/
lemma clean_queue_queue (pc : Nat → Bool) (now : Nat) (s : TrackerState)
    (pid g : Option Nat) :
    (clean_queue pc now s pid g).queue =
      s.queue.filter (fun e => !(cleanPred pc now pid g e.2)) := by
  rfl

/-- The cache after `clean_queue` folds an insertion of every extracted
hash over the original cache. -/
lemma clean_queue_cache (pc : Nat → Bool) (now : Nat) (s : TrackerState)
    (pid g : Option Nat) :
    (clean_queue pc now s pid g).cache =
      (s.queue.filter (fun e => cleanPred pc now pid g e.2)).foldl
        (fun c e => cacheInsert c e.1 now) s.cache := by
  rfl

/-- Inserting a hash makes the cache contain it. -/
lemma cacheHas_insert_self (c : Cache) (h now : Nat) :
    cacheHas (cacheInsert c h now) h = true := by
  simp [cacheHas, cacheInsert]

/-- Inserting any hash preserves membership of a hash already present. -/
lemma cacheHas_insert_mono (c : Cache) (h k now : Nat)
    (hc : cacheHas c h = true) : cacheHas (cacheInsert c k now) h = true := by
  by_cases hk : h = k
  · subst hk; exact cacheHas_insert_self c h now
  · simp only [cacheHas, List.any_eq_true] at hc
    rcases hc with ⟨e, he, hbeq⟩
    have he1 : e.1 = h := by simpa using hbeq
    simp only [cacheHas, cacheInsert, List.any_cons, List.any_eq_true, Bool.or_eq_true]
    right
    refine ⟨e, List.mem_filter.2 ⟨he, ?_⟩, hbeq⟩
    simp only [he1, decide_eq_true_eq]
    exact hk

/-- Folding cache insertions preserves membership. -/
lemma cacheHas_foldl_mono (l : Q) (c : Cache) (now h : Nat)
    (hc : cacheHas c h = true) :
    cacheHas (l.foldl (fun acc e => cacheInsert acc e.1 now) c) h = true := by
  induction l generalizing c with
  | nil => exact hc
  | cons x xs ih => exact ih _ (cacheHas_insert_mono c h x.1 now hc)

/-- Folding cache insertions over a list of entries puts every entry's
hash into the cache. -/
lemma cacheHas_foldl_of_mem (l : Q) (c : Cache) (now h : Nat)
    (hm : h ∈ l.map Prod.fst) :
    cacheHas (l.foldl (fun acc e => cacheInsert acc e.1 now) c) h = true := by
  induction l generalizing c with
  | nil => simp at hm
  | cons x xs ih =>
    rcases List.mem_map.1 hm with ⟨e, he, hh⟩
    rcases List.mem_cons.1 he with rfl | he
    · subst hh
      exact cacheHas_foldl_mono xs _ now e.1 (cacheHas_insert_self c e.1 now)
    · exact ih _ (List.mem_map.2 ⟨e, he, hh⟩)

/-- A queue holds no entry for `h` exactly when every entry's key differs
from `h`. -/
lemma qget_eq_none_iff (q : Q) (h : Nat) :
    qget q h = none ↔ ∀ e ∈ q, e.1 ≠ h := by
  simp [qget, List.find?_eq_none]

/-- Pushing a request for an absent key makes it retrievable. -/
lemma qget_push_self (q : Q) (h : Nat) (r : Request) (hq : qget q h = none) :
    qget (qpush q h r) h = some r := by
  unfold qget qpush
  rw [List.find?_append]
  unfold qget at hq
  cases hf : q.find? (fun e => e.1 == h) with
  | some e => rw [hf] at hq; simp at hq
  | none => simp [List.find?]

/-- After erasing the (unique, by `Nodup` keys) entry for `h`, no entry for
`h` remains. -/
lemma find?_eraseP_none (q : Q) (h : Nat) (hnd : (q.map Prod.fst).Nodup) :
    (q.eraseP (fun e => e.1 == h)).find? (fun e => e.1 == h) = none := by
  induction q with
  | nil => simp
  | cons x xs ih =>
    simp only [List.map_cons, List.nodup_cons] at hnd
    rcases hnd with ⟨hx, hxs⟩
    rw [List.eraseP_cons]
    cases hpx : (x.1 == h) with
    | true =>
      simp only [cond_true]
      rw [List.find?_eq_none]
      intro e he
      have he1 : e.1 ∈ xs.map Prod.fst := List.mem_map.2 ⟨e, he, rfl⟩
      have hx1 : x.1 = h := by simpa using hpx
      simp only [beq_iff_eq]
      intro heq
      exact hx (by rw [hx1, ← heq]; exact he1)
    | false =>
      simp only [cond_false]
      rw [List.find?_cons_of_neg _ (by simp_all), ih hxs]

/-- Entries remaining after `clean_queue` were already in the queue. -/
lemma mem_of_mem_clean_queue (pc : Nat → Bool) (now : Nat) (s : TrackerState)
    (pid g : Option Nat) (e : Nat × Request)
    (he : e ∈ (clean_queue pc now s pid g).queue) : e ∈ s.queue := by
  rw [clean_queue_queue] at he
  exact (List.mem_filter.1 he).1

/-- Entries remaining after `clean_queue` do not satisfy the eviction
predicate. -/
lemma not_cleanPred_of_mem_clean_queue (pc : Nat → Bool) (now : Nat)
    (s : TrackerState) (pid g : Option Nat) (e : Nat × Request)
    (he : e ∈ (clean_queue pc now s pid g).queue) :
    cleanPred pc now pid g e.2 = false := by
  rw [clean_queue_queue] at he
  have := (List.mem_filter.1 he).2
  simpa using this

/-- An entry of the queue satisfying the eviction predicate has its hash
in the cache after `clean_queue`. -/
lemma cacheHas_clean_queue_of_pred (pc : Nat → Bool) (now : Nat)
    (s : TrackerState) (pid g : Option Nat) (e : Nat × Request)
    (he : e ∈ s.queue) (hp : cleanPred pc now pid g e.2 = true) :
    cacheHas (clean_queue pc now s pid g).cache e.1 = true := by
  rw [clean_queue_cache]
  refine cacheHas_foldl_of_mem _ _ now e.1 (List.mem_map.2 ⟨e, ?_, rfl⟩)
  exact List.mem_filter.2 ⟨he, hp⟩

/-- Evicting the head's peer shrinks the queue strictly: the head itself
always satisfies the predicate through its peer id. -/
lemma clean_queue_head_length (pc : Nat → Bool) (now : Nat) (s : TrackerState)
    (x : Nat × Request) (rest : Q) (hq : s.queue = x :: rest) (g : Option Nat) :
    (clean_queue pc now s (some x.2.peerId) g).queue.length < s.queue.length := by
  have hx : cleanPred pc now (some x.2.peerId) g x.2 = true := cleanPred_of_peer pc now g x.2
  rw [clean_queue_queue, hq, List.filter_cons]
  simp only [hx, Bool.not_true, Bool.false_eq_true, if_false, List.length_cons]
  exact Nat.lt_succ_of_le (List.length_filter_le _ rest)

/-- Unfolding of one step of `sweepLoop` on a non-empty queue. -/
lemma sweepLoop_succ_cons (pc : Nat → Bool) (now fuel : Nat) (s : TrackerState)
    (x : Nat × Request) (rest : Q) (hq : s.queue = x :: rest) :
    sweepLoop pc now (fuel + 1) s =
      (match x.2.requestedAt with
       | none => (s, [])
       | some requestedAt =>
         if TIME_OUT < now - requestedAt then
           let r := sweepLoop pc now fuel
             (clean_queue pc now s (some x.2.peerId) x.2.groupId)
           (r.1, (x.2.peerId, x.2.groupId) :: r.2)
         else (s, [])) := by
  conv_lhs => rw [sweepLoop, hq]

/-- Unfolding of one step of `sweepLoop` on an empty queue. -/
lemma sweepLoop_succ_nil (pc : Nat → Bool) (now fuel : Nat) (s : TrackerState)
    (hq : s.queue = []) :
    sweepLoop pc now (fuel + 1) s = (s, []) := by
  unfold sweepLoop
  rw [hq]

/-- The sweep loop's result does not depend on the fuel, as long as the
fuel is at least the queue length. -/
lemma sweepLoop_fuel_ge (pc : Nat → Bool) (now : Nat) :
    ∀ fuel1 fuel2 s, s.queue.length ≤ fuel1 → s.queue.length ≤ fuel2 →
      sweepLoop pc now fuel1 s = sweepLoop pc now fuel2 s := by
  intro fuel1
  induction fuel1 with
  | zero =>
    intro fuel2 s h1 _
    have hq : s.queue = [] := List.eq_nil_of_length_eq_zero (Nat.le_zero.1 h1)
    cases fuel2 with
    | zero => rfl
    | succ f => rw [sweepLoop_succ_nil pc now f s hq]; rfl
  | succ f1 ih =>
    intro fuel2 s h1 h2
    cases fuel2 with
    | zero =>
      have hq : s.queue = [] := List.eq_nil_of_length_eq_zero (Nat.le_zero.1 h2)
      rw [sweepLoop_succ_nil pc now f1 s hq]; rfl
    | succ f2 =>
      cases hq : s.queue with
      | nil => rw [sweepLoop_succ_nil pc now f1 s hq, sweepLoop_succ_nil pc now f2 s hq]
      | cons x rest =>
        rw [sweepLoop_succ_cons pc now f1 s x rest hq,
            sweepLoop_succ_cons pc now f2 s x rest hq]
        cases hr : x.2.requestedAt with
        | none => rfl
        | some t =>
          simp only
          by_cases ht : TIME_OUT < now - t
          · simp only [if_pos ht]
            have hlt := clean_queue_head_length pc now s x rest hq x.2.groupId
            have hle1 : (clean_queue pc now s (some x.2.peerId) x.2.groupId).queue.length ≤ f1 :=
              Nat.lt_succ_iff.1 (Nat.lt_of_lt_of_le hlt h1)
            have hle2 : (clean_queue pc now s (some x.2.peerId) x.2.groupId).queue.length ≤ f2 :=
              Nat.lt_succ_iff.1 (Nat.lt_of_lt_of_le hlt h2)
            rw [ih f2 _ hle1 hle2]
          · simp only [if_neg ht]

/-- A cache sweep never adds a hash. -/
lemma cacheHas_clean_of_none (c : Cache) (timeout t h : Nat)
    (hc : cacheHas c h = false) : cacheHas (cacheClean c timeout t) h = false := by
  simp only [cacheHas, List.any_eq_false] at hc ⊢
  intro e he
  exact hc e (List.mem_filter.1 he).1

/-- Cache sweeps (at any instants) never add a hash. -/
lemma cacheHas_foldl_clean_of_none (times : List Nat) (c : Cache) (h : Nat)
    (hc : cacheHas c h = false) :
    cacheHas (times.foldl (fun acc t => cacheClean acc TIME_OUT t) c) h = false := by
  induction times generalizing c with
  | nil => exact hc
  | cons t ts ih => exact ih _ (cacheHas_clean_of_none c TIME_OUT t h hc)

/-- A cache sweep keeps every entry inside the retention window. -/
lemma mem_cacheClean_of_lt (c : Cache) (timeout t : Nat) (e : Nat × Nat)
    (he : e ∈ c) (ht : t - e.2 < timeout) : e ∈ cacheClean c timeout t := by
  exact List.mem_filter.2 ⟨he, by simpa using ht⟩

/-- Entries surviving a cache sweep were already present. -/
lemma mem_of_mem_cacheClean (c : Cache) (timeout t : Nat) (e : Nat × Nat)
    (he : e ∈ cacheClean c timeout t) : e ∈ c :=
  (List.mem_filter.1 he).1

/-- If every entry for hash `h` was inserted at `t0`, a sweep at an instant
past the retention window removes `h` from the cache. -/
lemma cacheHas_clean_of_expired (c : Cache) (h t0 t : Nat)
    (hins : ∀ p ∈ c, p.1 = h → p.2 = t0) (ht : TIME_OUT ≤ t - t0) :
    cacheHas (cacheClean c TIME_OUT t) h = false := by
  simp only [cacheHas, List.any_eq_false]
  intro e he
  rcases List.mem_filter.1 he with ⟨hec, hcond⟩
  simp only [beq_iff_eq]
  intro heq
  have he2 : e.2 = t0 := hins e hec heq
  rw [he2] at hcond
  simp only [decide_eq_true_eq] at hcond
  omega

/-- Cache sweeps through a list of instants all inside the retention window
(relative to insertion time `t0`) keep hash `h` present, and keep the
insertion-time bookkeeping. -/
lemma cacheHas_foldl_clean_of_lt (times : List Nat) (c : Cache) (h t0 : Nat)
    (hc : cacheHas c h = true) (hins : ∀ p ∈ c, p.1 = h → p.2 = t0)
    (ht : ∀ t ∈ times, t - t0 < TIME_OUT) :
    cacheHas (times.foldl (fun acc t => cacheClean acc TIME_OUT t) c) h = true := by
  induction times generalizing c with
  | nil => exact hc
  | cons t ts ih =>
    simp only [List.foldl_cons]
    refine ih (cacheClean c TIME_OUT t) ?_ ?_ ?_
    · simp only [cacheHas, List.any_eq_true] at hc ⊢
      rcases hc with ⟨e, he, hbeq⟩
      have he1 : e.1 = h := by simpa using hbeq
      have he2 : e.2 = t0 := hins e he he1
      refine ⟨e, mem_cacheClean_of_lt c TIME_OUT t e he ?_, hbeq⟩
      rw [he2]
      exact ht t (List.mem_cons_self t ts)
    · intro p hp h1
      exact hins p (mem_of_mem_cacheClean c TIME_OUT t p hp) h1
    · intro u hu
      exact ht u (List.mem_cons_of_mem t hu)

/-- If some sweep instant is past the retention window, the hash is gone
from the cache after the sweeps. -/
lemma cacheHas_foldl_clean_of_expired (times : List Nat) (c : Cache) (h t0 : Nat)
    (hins : ∀ p ∈ c, p.1 = h → p.2 = t0)
    (hex : ∃ t ∈ times, TIME_OUT ≤ t - t0) :
    cacheHas (times.foldl (fun acc t => cacheClean acc TIME_OUT t) c) h = false := by
  induction times generalizing c with
  | nil => simp at hex
  | cons t ts ih =>
    simp only [List.foldl_cons]
    by_cases hx : TIME_OUT ≤ t - t0
    · exact cacheHas_foldl_clean_of_none ts _ h
        (cacheHas_clean_of_expired c h t0 t hins hx)
    · rcases hex with ⟨u, hu, hux⟩
      rcases List.mem_cons.1 hu with rfl | hu
      · exact absurd hux hx
      · exact ih _ (fun p hp h1 => hins p (mem_of_mem_cacheClean c TIME_OUT t p hp) h1)
          ⟨u, hu, hux⟩

/-- Cache sweeps leave the queue (and everything but the cache)
unchanged. -/
lemma runCacheSweeps_queue (s : TrackerState) (times : List Nat) :
    (runCacheSweeps s times).queue = s.queue := by
  induction times generalizing s with
  | nil => rfl
  | cons t ts ih => exact ih { s with cache := cacheClean s.cache TIME_OUT t }

/-- The cache after a run of sweeps is the fold of `cacheClean` over the
sweep instants. -/
lemma runCacheSweeps_cache (s : TrackerState) (times : List Nat) :
    (runCacheSweeps s times).cache =
      times.foldl (fun acc t => cacheClean acc TIME_OUT t) s.cache := by
  induction times generalizing s with
  | nil => rfl
  | cons t ts ih => exact ih { s with cache := cacheClean s.cache TIME_OUT t }

/-- Membership of a hash in the cache after removing all entries for it is
impossible. -/
lemma cacheHas_filter_self (c : Cache) (h : Nat) :
    cacheHas (c.filter (fun e => e.1 ≠ h)) h = false := by
  simp only [cacheHas, List.any_eq_false]
  intro e he
  have h2 := (List.mem_filter.1 he).2
  simp only [decide_eq_true_eq] at h2
  simpa using h2

end Lemmas

section Claims

/-- CLAIM C1: if a Request for identity `h` is already queued,
`request_object_from_peer_with_or_get_notified` returns `Ok` with a
listener attached to the existing Request's notification slot, and the
tracker state is unchanged: no second Request is pushed for `h` and
nothing is enqueued onto the dispatch channel, so duplicate fetch calls
cause exactly one wire transmission. -/
theorem request_object_dedup_existing (s : TrackerState) (h peerId : Nat)
    (groupId : Option Nat) (req : Request) (hget : qget s.queue h = some req) :
    request_object_from_peer_with_or_get_notified s h peerId groupId
      = (s, Except.ok { slot := req.slot }) := by
  unfold request_object_from_peer_with_or_get_notified
  rw [hget]

/-- Witness for C1 at a concrete state holding a Request for hash 5. -/
theorem request_object_dedup_existing_witness :
    request_object_from_peer_with_or_get_notified
        { queue := [(5, { hash := 5, peerId := 1, groupId := none,
                          requestedAt := none, slot := 0 })],
          cache := [], channel := [], channelClosed := false, nextSlot := 1 }
        5 2 none
      = ({ queue := [(5, { hash := 5, peerId := 1, groupId := none,
                           requestedAt := none, slot := 0 })],
           cache := [], channel := [], channelClosed := false, nextSlot := 1 },
         Except.ok { slot := 0 }) :=
  request_object_dedup_existing _ 5 2 none
    { hash := 5, peerId := 1, groupId := none, requestedAt := none, slot := 0 }
    (by decide)

/-- CLAIM C4, counterexample: with the dispatch channel closed and the
identity not yet queued, the call returns `ChannelClosed` but the freshly
pushed Request for the identity is still in the queue, so the claim "the
tracker's queue does not retain a Request for the given identity after the
call returns the error" fails on the code (the push at line 262 of
`tracker/mod.rs` is not rolled back when the send at line 268 fails). -/
theorem request_object_channel_closed_cex :
    (request_object_from_peer_with_or_get_notified
        { queue := [], cache := [], channel := [], channelClosed := true, nextSlot := 0 }
        7 1 none).2
      = Except.error P2pError.ChannelClosed ∧
    queueHas (request_object_from_peer_with_or_get_notified
        { queue := [], cache := [], channel := [], channelClosed := true, nextSlot := 0 }
        7 1 none).1 7 = true := by
  exact ⟨rfl, by decide⟩

/-- CLAIM C4, amended: whenever the dispatch-channel send fails with
`ChannelClosed`, the failure is local to the triggering call, but the
Request pushed for the identity remains in the queue after the call
returns the error; it is only removed later by an eviction path or the
shutdown drain. -/
theorem request_object_channel_closed_keeps_request (s : TrackerState)
    (h peerId : Nat) (groupId : Option Nat)
    (hq : qget s.queue h = none) (hc : s.channelClosed = true) :
    (request_object_from_peer_with_or_get_notified s h peerId groupId).2
      = Except.error P2pError.ChannelClosed ∧
    queueHas (request_object_from_peer_with_or_get_notified s h peerId groupId).1 h
      = true := by
  unfold request_object_from_peer_with_or_get_notified
  rw [hq]
  simp only [hc, if_true]
  constructor
  · trivial
  · unfold queueHas
    rw [qget_push_self s.queue h _ hq]
    rfl

/-- Witness for the amended C4 at a concrete closed-channel state. -/
theorem request_object_channel_closed_keeps_request_witness :
    (request_object_from_peer_with_or_get_notified
        { queue := [(4, { hash := 4, peerId := 2, groupId := none,
                          requestedAt := none, slot := 0 })],
          cache := [], channel := [], channelClosed := true, nextSlot := 1 }
        9 1 (some 3)).2
      = Except.error P2pError.ChannelClosed ∧
    queueHas (request_object_from_peer_with_or_get_notified
        { queue := [(4, { hash := 4, peerId := 2, groupId := none,
                          requestedAt := none, slot := 0 })],
          cache := [], channel := [], channelClosed := true, nextSlot := 1 }
        9 1 (some 3)).1 9 = true :=
  request_object_channel_closed_keeps_request _ 9 1 (some 3) (by decide) (by decide)

/-- CLAIM C9: the shutdown drain of `handler_loop` clears the queue in one
step and, unlike every other eviction path, does not insert the removed
identities into the dedupe cache: the cache is unchanged, so it contains a
hash afterwards exactly when it already contained it. -/
theorem handler_exit_drains_queue_without_caching (s : TrackerState) :
    (handler_loop_exit s).queue = [] ∧
    ∀ h, cacheHas (handler_loop_exit s).cache h = cacheHas s.cache h :=
  ⟨rfl, fun _ => rfl⟩

/-- CLAIM C3, counterexample: `mark_group_as_fail 5` on a queue whose only
Request is tagged with no group, but whose peer connection is observed
closed, removes that Request, so group cancellation does not leave every
Request not tagged with the group unchanged. -/
theorem mark_group_as_fail_touches_other_cex :
    ({ hash := 1, peerId := 0, groupId := none,
       requestedAt := none, slot := 0 } : Request).groupId ≠ some 5 ∧
    (mark_group_as_fail (fun _ => true) 0
        { queue := [(1, { hash := 1, peerId := 0, groupId := none,
                          requestedAt := none, slot := 0 })],
          cache := [], channel := [], channelClosed := false, nextSlot := 1 }
        5).queue = [] := by
  constructor <;> decide

/-- CLAIM C3, amended: `mark_group_as_fail g` removes from the queue every
Request tagged with group `g`, independent of its send state, moving each
removed identity into the dedupe cache; a queued Request not tagged with
`g` is left in the queue provided its peer connection is not observed
closed and it is not sent-and-expired (those are swept too, by the shared
eviction predicate); no entry is added to the queue. -/
theorem mark_group_as_fail_frame (pc : Nat → Bool) (now : Nat)
    (s : TrackerState) (g : Nat) :
    (∀ e ∈ s.queue, e.2.groupId = some g →
        e ∉ (mark_group_as_fail pc now s g).queue ∧
        cacheHas (mark_group_as_fail pc now s g).cache e.1 = true) ∧
    (∀ e ∈ s.queue, e.2.groupId ≠ some g → pc e.2.peerId = false →
        (∀ t, e.2.requestedAt = some t → now - t ≤ TIME_OUT) →
        e ∈ (mark_group_as_fail pc now s g).queue) ∧
    (∀ e ∈ (mark_group_as_fail pc now s g).queue, e ∈ s.queue) := by
  refine ⟨?_, ?_, ?_⟩
  · intro e he hg
    have hp : cleanPred pc now none (some g) e.2 = true :=
      cleanPred_of_group pc now none g e.2 hg
    constructor
    · intro hmem
      have := not_cleanPred_of_mem_clean_queue pc now s none (some g) e hmem
      rw [hp] at this
      exact Bool.noConfusion this
    · exact cacheHas_clean_queue_of_pred pc now s none (some g) e he hp
  · intro e he hg hpc ht
    have hp : cleanPred pc now none (some g) e.2 = false := by
      rw [cleanPred_eq]
      have h1 : (match (some g : Option Nat), e.2.groupId with
                 | some failedGroup, some requestGroup => failedGroup == requestGroup
                 | _, _ => false) = false := by
        cases hgg : e.2.groupId with
        | none => rfl
        | some rg =>
          rw [beq_eq_false_iff_ne]
          intro hEq
          exact hg (by rw [hgg, hEq])
      have h2 : (some e.2.peerId == (none : Option Nat)) = false := rfl
      have h3 : (match e.2.requestedAt with
                 | some requestedAt => decide (TIME_OUT < now - requestedAt)
                 | none => false) = false := by
        cases hre : e.2.requestedAt with
        | none => rfl
        | some t =>
          have hle := ht t hre
          exact decide_eq_false (by omega)
      rw [h1, h2, h3, hpc]
      rfl
    show e ∈ (clean_queue pc now s none (some g)).queue
    rw [clean_queue_queue]
    exact List.mem_filter.2 ⟨he, by rw [hp]; rfl⟩
  · intro e he
    exact mem_of_mem_clean_queue pc now s none (some g) e he

/-- Witness for the amended C3: group 5 is evicted into the cache while an
untagged, live, unsent Request survives. -/
theorem mark_group_as_fail_frame_witness :
    ((5, { hash := 5, peerId := 1, groupId := some 5,
           requestedAt := none, slot := 0 }) : Nat × Request)
      ∉ (mark_group_as_fail (fun _ => false) 0
          { queue := [(5, { hash := 5, peerId := 1, groupId := some 5,
                            requestedAt := none, slot := 0 }),
                      (6, { hash := 6, peerId := 2, groupId := none,
                            requestedAt := none, slot := 1 })],
            cache := [], channel := [], channelClosed := false, nextSlot := 2 }
          5).queue ∧
    ((6, { hash := 6, peerId := 2, groupId := none,
           requestedAt := none, slot := 1 }) : Nat × Request)
      ∈ (mark_group_as_fail (fun _ => false) 0
          { queue := [(5, { hash := 5, peerId := 1, groupId := some 5,
                            requestedAt := none, slot := 0 }),
                      (6, { hash := 6, peerId := 2, groupId := none,
                            requestedAt := none, slot := 1 })],
            cache := [], channel := [], channelClosed := false, nextSlot := 2 }
          5).queue :=
  ⟨((mark_group_as_fail_frame (fun _ => false) 0
      { queue := [(5, { hash := 5, peerId := 1, groupId := some 5,
                        requestedAt := none, slot := 0 }),
                  (6, { hash := 6, peerId := 2, groupId := none,
                        requestedAt := none, slot := 1 })],
        cache := [], channel := [], channelClosed := false, nextSlot := 2 }
      5).1 _ (by decide) (by decide)).1,
   (mark_group_as_fail_frame (fun _ => false) 0
      { queue := [(5, { hash := 5, peerId := 1, groupId := some 5,
                        requestedAt := none, slot := 0 }),
                  (6, { hash := 6, peerId := 2, groupId := none,
                        requestedAt := none, slot := 1 })],
        cache := [], channel := [], channelClosed := false, nextSlot := 2 }
      5).2.1 _ (by decide) (by decide) (by decide) (fun t ht => by simp at ht)⟩

/-- CLAIM C6, counterexample: a Request that was never sent
(`requestedAt = none`) and is evicted by a group cancellation does produce
a dedupe-cache entry, so cache entries are not created only for Requests
evicted after having been sent. -/
theorem unsent_eviction_creates_cache_entry_cex :
    ({ hash := 2, peerId := 0, groupId := some 5,
       requestedAt := none, slot := 0 } : Request).requestedAt = none ∧
    cacheHas (mark_group_as_fail (fun _ => false) 100
        { queue := [(2, { hash := 2, peerId := 0, groupId := some 5,
                          requestedAt := none, slot := 0 })],
          cache := [], channel := [], channelClosed := false, nextSlot := 1 }
        5).cache 2 = true := by
  constructor <;> decide

/-- CLAIM C6, amended: a dedupe-cache entry is created for an identity
whenever its Request is evicted from the queue by the eviction routine
`clean_queue`, regardless of whether the Request had been sent; only the
shutdown drain skips the cache. -/
theorem clean_queue_evicted_always_cached (pc : Nat → Bool) (now : Nat)
    (s : TrackerState) (pid g : Option Nat) :
    ∀ e ∈ s.queue, e ∉ (clean_queue pc now s pid g).queue →
      cacheHas (clean_queue pc now s pid g).cache e.1 = true := by
  intro e he hnot
  by_cases hp : cleanPred pc now pid g e.2 = true
  · exact cacheHas_clean_queue_of_pred pc now s pid g e he hp
  · exfalso
    apply hnot
    rw [clean_queue_queue]
    refine List.mem_filter.2 ⟨he, ?_⟩
    rw [Bool.not_eq_true] at hp
    rw [hp]
    rfl

/-- Witness for the amended C6: an unsent group-tagged Request evicted by
`clean_queue` lands in the cache. -/
theorem clean_queue_evicted_always_cached_witness :
    cacheHas (clean_queue (fun _ => false) 100
        { queue := [(2, { hash := 2, peerId := 0, groupId := some 5,
                          requestedAt := none, slot := 0 })],
          cache := [], channel := [], channelClosed := false, nextSlot := 1 }
        none (some 5)).cache 2 = true :=
  clean_queue_evicted_always_cached (fun _ => false) 100
    { queue := [(2, { hash := 2, peerId := 0, groupId := some 5,
                      requestedAt := none, slot := 0 })],
      cache := [], channel := [], channelClosed := false, nextSlot := 1 }
    none (some 5)
    (2, { hash := 2, peerId := 0, groupId := some 5,
          requestedAt := none, slot := 0 })
    (by decide) (by decide)

/-- CLAIM C2: `handle_object_response` always returns `Ok` (its error
branch is never taken); if the identity is queued it removes it from the
queue, notifies the Request's listeners with the payload and returns
`true`; if it is absent from the queue it removes it from the dedupe cache
and returns `true` exactly when an entry was there, else `false`.  The
`Nodup` hypothesis is the tracker's own at-most-one-Request-per-identity
invariant on the queue keys. -/
theorem handle_object_response_total_cases (s : TrackerState) (h payload : Nat)
    (hnd : (s.queue.map Prod.fst).Nodup) :
    ∃ s2 b ns, handle_object_response s h payload = Except.ok (s2, b, ns) ∧
      (queueHas s h = true →
        b = true ∧ queueHas s2 h = false ∧ s2.cache = s.cache ∧
        ∃ req, qget s.queue h = some req ∧ ns = [(req.slot, payload)]) ∧
      (queueHas s h = false →
        s2.queue = s.queue ∧ ns = [] ∧ b = cacheHas s.cache h ∧
        cacheHas s2.cache h = false) := by
  cases hf : s.queue.find? (fun e => e.1 == h) with
  | some e =>
    have hq : queueHas s h = true := by
      unfold queueHas qget
      rw [hf]
      rfl
    refine ⟨{ s with queue := s.queue.eraseP (fun e => e.1 == h) }, true,
      [(e.2.slot, payload)], ?_, ?_, ?_⟩
    · unfold handle_object_response qremove
      rw [hf]
    · intro _
      refine ⟨rfl, ?_, rfl, e.2, ?_, rfl⟩
      · unfold queueHas qget
        rw [find?_eraseP_none s.queue h hnd]
        rfl
      · unfold qget
        rw [hf]
        rfl
    · intro hq0
      rw [hq] at hq0
      exact Bool.noConfusion hq0
  | none =>
    have hq : queueHas s h = false := by
      unfold queueHas qget
      rw [hf]
      rfl
    cases hb : s.cache.any (fun e => e.1 == h) with
    | true =>
      refine ⟨{ s with cache := s.cache.filter (fun e => e.1 ≠ h) }, true, [],
        ?_, ?_, ?_⟩
      · unfold handle_object_response qremove cacheRemove
        rw [hf, hb]
      · intro hq1
        rw [hq] at hq1
        exact Bool.noConfusion hq1
      · intro _
        exact ⟨rfl, rfl, hb.symm, cacheHas_filter_self s.cache h⟩
    | false =>
      refine ⟨s, false, [], ?_, ?_, ?_⟩
      · unfold handle_object_response qremove cacheRemove
        rw [hf, hb]
      · intro hq1
        rw [hq] at hq1
        exact Bool.noConfusion hq1
      · intro _
        exact ⟨rfl, rfl, hb.symm, hb⟩

/-- Witness for C2 at a concrete state queuing a Request for hash 1. -/
theorem handle_object_response_total_cases_witness :
    ∃ s2 b ns, handle_object_response
        { queue := [(1, { hash := 1, peerId := 1, groupId := none,
                          requestedAt := none, slot := 0 })],
          cache := [], channel := [], channelClosed := false, nextSlot := 1 }
        1 9 = Except.ok (s2, b, ns) := by
  obtain ⟨s2, b, ns, heq, -, -⟩ :=
    handle_object_response_total_cases
      { queue := [(1, { hash := 1, peerId := 1, groupId := none,
                        requestedAt := none, slot := 0 })],
        cache := [], channel := [], channelClosed := false, nextSlot := 1 }
      1 9 (by decide)
  exact ⟨s2, b, ns, heq⟩

/-- CLAIM C10: `handle_object_response` checks the queue before the dedupe
cache.  For an identity present in both, the call returns `true`, removes
only the queue entry and leaves the cache entry in place; a second
response for the same identity then also returns `true` (and only then
consumes the cache entry). -/
theorem handle_object_response_queue_before_cache (s : TrackerState)
    (h payload payload2 : Nat) (req : Request)
    (hget : qget s.queue h = some req) (hc : cacheHas s.cache h = true)
    (hnd : (s.queue.map Prod.fst).Nodup) :
    ∃ s2, handle_object_response s h payload
        = Except.ok (s2, true, [(req.slot, payload)]) ∧
      queueHas s2 h = false ∧ s2.cache = s.cache ∧
      ∃ s3, handle_object_response s2 h payload2 = Except.ok (s3, true, []) ∧
        cacheHas s3.cache h = false := by
  unfold qget at hget
  cases hf : s.queue.find? (fun e => e.1 == h) with
  | none =>
    rw [hf] at hget
    exact Option.noConfusion hget
  | some e =>
    rw [hf] at hget
    have he2 : e.2 = req := Option.some.inj hget
    refine ⟨{ s with queue := s.queue.eraseP (fun e => e.1 == h) }, ?_, ?_, rfl, ?_⟩
    · unfold handle_object_response qremove
      rw [hf, ← he2]
    · unfold queueHas qget
      rw [find?_eraseP_none s.queue h hnd]
      rfl
    · refine ⟨({ s with queue := s.queue.eraseP (fun e => e.1 == h), cache := s.cache.filter (fun e => e.1 ≠ h) } : TrackerState), ?_, ?_⟩
      · unfold handle_object_response qremove cacheRemove
        rw [find?_eraseP_none s.queue h hnd,
            show s.cache.any (fun e => e.1 == h) = true from hc]
      · exact cacheHas_filter_self s.cache h

/-- Witness for C10 at a concrete state with hash 1 both queued and
cached. -/
theorem handle_object_response_queue_before_cache_witness :
    ∃ s2, handle_object_response
        { queue := [(1, { hash := 1, peerId := 1, groupId := none,
                          requestedAt := some 0, slot := 0 })],
          cache := [(1, 50)], channel := [], channelClosed := false, nextSlot := 1 }
        1 9
        = Except.ok (s2, true, [(0, 9)]) ∧
      queueHas s2 1 = false ∧
      s2.cache = [(1, 50)] ∧
      ∃ s3, handle_object_response s2 1 10 = Except.ok (s3, true, []) ∧
        cacheHas s3.cache 1 = false :=
  handle_object_response_queue_before_cache
    { queue := [(1, { hash := 1, peerId := 1, groupId := none,
                      requestedAt := some 0, slot := 0 })],
      cache := [(1, 50)], channel := [], channelClosed := false, nextSlot := 1 }
    1 9 10
    { hash := 1, peerId := 1, groupId := none, requestedAt := some 0, slot := 0 }
    (by decide) (by decide) (by decide)

/-- Helper: stamping the send time preserves an entry's key, peer and
group. -/
lemma qsetRequested_entry_fields (e : Nat × Request) (h now : Nat) :
    ((if e.1 == h then (e.1, { e.2 with requestedAt := some now }) else e) : Nat × Request).1 = e.1 ∧
    ((if e.1 == h then (e.1, { e.2 with requestedAt := some now }) else e) : Nat × Request).2.peerId = e.2.peerId ∧
    ((if e.1 == h then (e.1, { e.2 with requestedAt := some now }) else e) : Nat × Request).2.groupId = e.2.groupId := by
  by_cases hc : (e.1 == h) = true
  · simp [hc]
  · simp [hc]

/-- CLAIM C8: when the requester loop dispatches an identity whose target
peer's connection is observed closed, or whose transmission fails, it
invokes the eviction routine with that peer's id and the request's group
in the same step: afterwards every Request of that peer or of that group
is gone from the queue (no surviving entry has that peer or that group)
and each such Request's identity is in the dedupe cache. -/
theorem request_internal_failure_evicts (pc : Nat → Bool) (now : Nat)
    (sendOk : Bool) (s : TrackerState) (h : Nat) (req : Request)
    (hget : qget s.queue h = some req)
    (hfail : pc req.peerId = true ∨ sendOk = false) :
    (∀ e ∈ s.queue,
        (e.2.peerId = req.peerId ∨
         (∃ g, req.groupId = some g ∧ e.2.groupId = some g)) →
        cacheHas (request_object_from_peer_internal pc now sendOk s h).cache e.1 = true) ∧
    (∀ e ∈ (request_object_from_peer_internal pc now sendOk s h).queue,
        e.2.peerId ≠ req.peerId ∧
        ∀ g, req.groupId = some g → e.2.groupId ≠ some g) := by
  have hE : request_object_from_peer_internal pc now sendOk s h
      = clean_queue pc now { s with queue := qsetRequested s.queue h now }
          (some req.peerId) req.groupId := by
    unfold request_object_from_peer_internal
    rw [hget]
    rcases hfail with hp | hs
    · simp [hp]
    · cases hpc : pc req.peerId <;> simp [hpc, hs]
  rw [hE]
  constructor
  · intro e he hmatch
    have he1 : (if e.1 == h then (e.1, { e.2 with requestedAt := some now }) else e)
        ∈ qsetRequested s.queue h now :=
      List.mem_map_of_mem _ he
    obtain ⟨hk, hp, hg⟩ := qsetRequested_entry_fields e h now
    have hpred : cleanPred pc now (some req.peerId) req.groupId
        ((if e.1 == h then (e.1, { e.2 with requestedAt := some now }) else e) : Nat × Request).2 = true := by
      rcases hmatch with hpeer | ⟨g, hg1, hg2⟩
      · rw [cleanPred_eq]
        rw [hp, hpeer]
        simp
      · rw [hg1]
        exact cleanPred_of_group pc now (some req.peerId) g _ (by rw [hg, hg2])
    have := cacheHas_clean_queue_of_pred pc now
      { s with queue := qsetRequested s.queue h now } (some req.peerId) req.groupId
      _ he1 hpred
    rw [hk] at this
    exact this
  · intro e he
    have hpred := not_cleanPred_of_mem_clean_queue pc now
      { s with queue := qsetRequested s.queue h now } (some req.peerId) req.groupId e he
    rw [cleanPred_eq] at hpred
    simp only [Bool.or_eq_false_iff] at hpred
    obtain ⟨⟨hg0, hp0, _⟩, ht0⟩ := hpred
    constructor
    · intro hEq
      rw [hEq] at hp0
      simp at hp0
    · intro g hgq heq
      rw [hgq, heq] at hg0
      simp at hg0

/-- Witness for C8: peer 7's connection is closed at dispatch of hash 1;
the whole peer-7 and group-4 backlog is evicted into the cache. -/
theorem request_internal_failure_evicts_witness :
    cacheHas (request_object_from_peer_internal (fun p => p == 7) 0 true
        { queue := [(1, { hash := 1, peerId := 7, groupId := some 4,
                          requestedAt := none, slot := 0 }),
                    (3, { hash := 3, peerId := 8, groupId := some 4,
                          requestedAt := none, slot := 1 })],
          cache := [], channel := [], channelClosed := false, nextSlot := 2 }
        1).cache 3 = true :=
  (request_internal_failure_evicts (fun p => p == 7) 0 true
      { queue := [(1, { hash := 1, peerId := 7, groupId := some 4,
                        requestedAt := none, slot := 0 }),
                  (3, { hash := 3, peerId := 8, groupId := some 4,
                        requestedAt := none, slot := 1 })],
        cache := [], channel := [], channelClosed := false, nextSlot := 2 }
      1
      { hash := 1, peerId := 7, groupId := some 4, requestedAt := none, slot := 0 }
      (by decide) (Or.inl (by decide))).1
    ((3, { hash := 3, peerId := 8, groupId := some 4,
           requestedAt := none, slot := 1 }) : Nat × Request)
    (by decide) (Or.inr ⟨4, rfl, rfl⟩)

/-- Helper for C5: the head-scan loop invariant, by induction on the fuel.
After the loop, a remaining head entry is either not yet sent or within the
timeout threshold, and every `clean_queue` invocation the loop performed
was triggered by an entry of the original queue that was sent and expired,
using that entry's peer id and group. -/
lemma sweepLoop_spec (pc : Nat → Bool) (now : Nat) :
    ∀ fuel s, s.queue.length ≤ fuel →
      (∀ x, (sweepLoop pc now fuel s).1.queue.head? = some x →
          x.2.requestedAt = none ∨
          ∃ t, x.2.requestedAt = some t ∧ now - t ≤ TIME_OUT) ∧
      (∀ pg ∈ (sweepLoop pc now fuel s).2, ∃ e, e ∈ s.queue ∧
          (∃ t, e.2.requestedAt = some t ∧ TIME_OUT < now - t) ∧
          e.2.peerId = pg.1 ∧ e.2.groupId = pg.2) := by
  intro fuel
  induction fuel with
  | zero =>
    intro s hle
    have hq : s.queue = [] := List.eq_nil_of_length_eq_zero (Nat.le_zero.1 hle)
    constructor
    · intro x hx
      rw [show sweepLoop pc now 0 s = (s, []) from rfl, hq] at hx
      exact Option.noConfusion hx
    · intro pg hpg
      rw [show sweepLoop pc now 0 s = (s, []) from rfl] at hpg
      exact absurd hpg (List.not_mem_nil pg)
  | succ f ih =>
    intro s hle
    cases hq : s.queue with
    | nil =>
      rw [sweepLoop_succ_nil pc now f s hq]
      constructor
      · intro x hx
        rw [show ((s, []) : TrackerState × List (Nat × Option Nat)).1 = s from rfl, hq] at hx
        exact Option.noConfusion hx
      · intro pg hpg
        exact absurd hpg (List.not_mem_nil pg)
    | cons x rest =>
      rw [sweepLoop_succ_cons pc now f s x rest hq]
      cases hr : x.2.requestedAt with
      | none =>
        constructor
        · intro y hy
          have hy2 : s.queue.head? = some y := hy
          rw [hq] at hy2
          have hxy : x = y := by simpa using hy2
          left
          rw [← hxy]
          exact hr
        · intro pg hpg
          exact absurd hpg (List.not_mem_nil pg)
      | some t =>
        dsimp only
        by_cases ht : TIME_OUT < now - t
        · rw [if_pos ht]
          have hlt := clean_queue_head_length pc now s x rest hq x.2.groupId
          have hle1 : (clean_queue pc now s (some x.2.peerId) x.2.groupId).queue.length ≤ f :=
            Nat.lt_succ_iff.1 (Nat.lt_of_lt_of_le hlt hle)
          obtain ⟨ih1, ih2⟩ := ih (clean_queue pc now s (some x.2.peerId) x.2.groupId) hle1
          constructor
          · intro y hy
            exact ih1 y hy
          · intro pg hpg
            rcases List.mem_cons.1 hpg with hhd | htl
            · subst hhd
              exact ⟨x, List.mem_cons_self x rest, ⟨t, hr, ht⟩, rfl, rfl⟩
            · rcases ih2 pg htl with ⟨e, he, hrest⟩
              exact ⟨e, hq ▸ mem_of_mem_clean_queue pc now s (some x.2.peerId) x.2.groupId e he,
                hrest⟩
        · rw [if_neg ht]
          constructor
          · intro y hy
            have hy2 : s.queue.head? = some y := hy
            rw [hq] at hy2
            have hxy : x = y := by simpa using hy2
            right
            refine ⟨t, ?_, Nat.le_of_not_lt ht⟩
            rw [← hxy]
            exact hr
          · intro pg hpg
            exact absurd hpg (List.not_mem_nil pg)

/-- CLAIM C5: one tick of the timeout sweep scans from the head; afterwards
a non-empty queue's head entry is either not yet sent or sent but within
the timeout threshold, and every eviction-routine invocation the tick
performed was triggered by a head entry of the (original) queue that was
sent and expired, with that entry's peer id and group as arguments. -/
theorem sweep_tick_head_scan (pc : Nat → Bool) (now : Nat) (s : TrackerState) :
    (∀ x, (sweepTick pc now s).1.queue.head? = some x →
        x.2.requestedAt = none ∨
        ∃ t, x.2.requestedAt = some t ∧ now - t ≤ TIME_OUT) ∧
    (∀ pg ∈ (sweepTick pc now s).2, ∃ e, e ∈ s.queue ∧
        (∃ t, e.2.requestedAt = some t ∧ TIME_OUT < now - t) ∧
        e.2.peerId = pg.1 ∧ e.2.groupId = pg.2) :=
  sweepLoop_spec pc now s.queue.length s (Nat.le_refl _)

/-- Witness for C5: at t=16000 the head (sent at t=0) is expired and gets
evicted with its peer and group; the surviving head (sent at t=15500) is
within the threshold. -/
theorem sweep_tick_head_scan_witness :
    ((2, { hash := 2, peerId := 2, groupId := none,
           requestedAt := some 15500, slot := 1 }) : Nat × Request).2.requestedAt = none ∨
    ∃ t, ((2, { hash := 2, peerId := 2, groupId := none,
                requestedAt := some 15500, slot := 1 }) : Nat × Request).2.requestedAt = some t ∧
      16000 - t ≤ TIME_OUT :=
  (sweep_tick_head_scan (fun _ => false) 16000
      { queue := [(1, { hash := 1, peerId := 1, groupId := some 3,
                        requestedAt := some 0, slot := 0 }),
                  (2, { hash := 2, peerId := 2, groupId := none,
                        requestedAt := some 15500, slot := 1 })],
        cache := [], channel := [], channelClosed := false, nextSlot := 2 }).1
    ((2, { hash := 2, peerId := 2, groupId := none,
           requestedAt := some 15500, slot := 1 }) : Nat × Request)
    (by decide)

/-- CLAIM C7, counterexample: the request for hash 3 sent at t=0 is evicted
by the sweep at t=20000 and enters the dedupe cache.  A response arriving
at t=36000 — after the 15 s retention window measured from the eviction
(20000 + 15000 = 35000 < 36000) — is still absorbed with `true`, because
`ExpirableCache::remove` never looks at the entry's age and no cache sweep
ran between eviction and response.  This contradicts the claim that a call
made after the retention window has elapsed returns `false`. -/
theorem late_response_after_window_cex :
    TIME_OUT ≤ 36000 - 20000 ∧
    handle_object_response
        (sweepTick (fun _ => false) 20000
          { queue := [(3, { hash := 3, peerId := 1, groupId := none,
                            requestedAt := some 0, slot := 0 })],
            cache := [], channel := [], channelClosed := false, nextSlot := 1 }).1
        3 9
      = Except.ok
          ({ queue := [], cache := [], channel := [], channelClosed := false,
             nextSlot := 1 }, true, []) :=
  ⟨by decide, rfl⟩

/-- CLAIM C7, amended: for an identity `h` evicted into the dedupe cache at
time `t0` (every cache entry for `h` carries insertion time `t0`) and no
longer queued: as long as every cache sweep so far ran within the retention
window (`t - t0 < 15000`), a response for `h` is absorbed — the call
returns `Ok true` with no error; once some cache sweep has run at or past
`t0 + 15000`, the call returns `Ok false`.  (Time alone does not decide the
outcome: between window expiry and the next sweep tick a late response is
still absorbed, see the counterexample.) -/
theorem late_response_retention_window (s : TrackerState) (h t0 payload : Nat)
    (times : List Nat)
    (hq : qget s.queue h = none) (hc : cacheHas s.cache h = true)
    (hins : ∀ p ∈ s.cache, p.1 = h → p.2 = t0) :
    ((∀ t ∈ times, t - t0 < TIME_OUT) →
      ∃ s2, handle_object_response (runCacheSweeps s times) h payload
          = Except.ok (s2, true, [])) ∧
    ((∃ t ∈ times, TIME_OUT ≤ t - t0) →
      handle_object_response (runCacheSweeps s times) h payload
          = Except.ok (runCacheSweeps s times, false, [])) := by
  have hfq : (runCacheSweeps s times).queue.find? (fun e => e.1 == h) = none := by
    rw [runCacheSweeps_queue]
    unfold qget at hq
    exact Option.map_eq_none'.1 hq
  constructor
  · intro hall
    have hhas : cacheHas (runCacheSweeps s times).cache h = true := by
      rw [runCacheSweeps_cache]
      exact cacheHas_foldl_clean_of_lt times s.cache h t0 hc hins hall
    refine ⟨{ runCacheSweeps s times with
        cache := (runCacheSweeps s times).cache.filter (fun e => e.1 ≠ h) }, ?_⟩
    unfold handle_object_response qremove cacheRemove
    rw [hfq, show (runCacheSweeps s times).cache.any (fun e => e.1 == h) = true from hhas]
  · intro hex
    have hhas : cacheHas (runCacheSweeps s times).cache h = false := by
      rw [runCacheSweeps_cache]
      exact cacheHas_foldl_clean_of_expired times s.cache h t0 hins hex
    unfold handle_object_response qremove cacheRemove
    rw [hfq, show (runCacheSweeps s times).cache.any (fun e => e.1 == h) = false from hhas]

/-- Witness for the amended C7: hash 3 cached at t0=0; after a cache sweep
at t=16000 (past the 15 s window) the response returns false. -/
theorem late_response_retention_window_witness :
    handle_object_response
        (runCacheSweeps
          { queue := [], cache := [(3, 0)], channel := [],
            channelClosed := false, nextSlot := 0 } [16000])
        3 9
      = Except.ok
          (runCacheSweeps
            { queue := [], cache := [(3, 0)], channel := [],
              channelClosed := false, nextSlot := 0 } [16000],
           false, []) :=
  (late_response_retention_window
      { queue := [], cache := [(3, 0)], channel := [],
        channelClosed := false, nextSlot := 0 }
      3 0 9 [16000] (by decide) (by decide)
      (by intro p hp h1; rcases List.mem_singleton.1 hp with rfl; rfl)).2
    ⟨16000, List.mem_singleton.2 rfl, by decide⟩

end Claims

end Tracker
